import Mathlib

/-!
Verification of the blog CMS in `src/app.js` (slug-based revision).

The development shallowly embeds the slug generator (`generateSlug`,
app.js lines 305-312), the creation-time slug probe loop
(POST /admin/blog, lines 546-609), and the admin request handlers
(login, admin list, edit form, submit edit, submit create, delete,
public post fetch) as pure Lean functions over an explicit server
state (record store plus object-storage bucket).  Remote store and
bucket calls are modelled as succeeding; the only modelled failure is
the deterministic JavaScript null dereference in the edit handler.
Unicode case-mapping is modelled by the ASCII lowercase map, which
agrees with JavaScript `toLowerCase` on all ASCII input.
-/

namespace Blog

/-- ASCII word characters, the JS regex class `\w` = `[A-Za-z0-9_]`
used in `/[^\w\s-]/g` (app.js line 308).  Note it KEEPS underscores. -/
def isWordChar (c : Char) : Bool :=
  c.isAlpha || c.isDigit || c == '_'

/-- JS regex class `\s` (WhiteSpace plus LineTerminator code points). -/
def isJsSpace (c : Char) : Bool :=
  c == ' ' || c == '\t' || c == '\n' || c == '\r' ||
  c == '\x0b' || c == '\x0c' || c == '\u00A0' || c == '\u1680' ||
  (decide ('\u2000' ≤ c) && decide (c ≤ '\u200A')) ||
  c == '\u2028' || c == '\u2029' || c == '\u202F' ||
  c == '\u205F' || c == '\u3000' || c == '\uFEFF'

/-- Characters surviving `.replace(/[^\w\s-]/g, '')` (app.js line 308). -/
def keepChar (c : Char) : Bool :=
  isWordChar c || isJsSpace c || c == '-'

/-- Global regex replacement of each maximal run of characters
satisfying `p` by a single `'-'`: models the `\s+` to `'-'` and the
hyphen-run (`-+`) to `'-'` replacements (app.js lines 309-310).  The
boolean flag records whether the previous character was in a run. -/
def collapseRuns (p : Char → Bool) : Bool → List Char → List Char
  | _, [] => []
  | inRun, c :: cs =>
    if p c then
      if inRun then collapseRuns p true cs
      else '-' :: collapseRuns p true cs
    else c :: collapseRuns p false cs

/-- JS `String.prototype.trim` (app.js line 311): strips `\s`
characters from both ends.  It does NOT strip hyphens. -/
def trimWs (l : List Char) : List Char :=
  ((l.dropWhile isJsSpace).reverse.dropWhile isJsSpace).reverse

/-- The slug generator `generateSlug` (app.js lines 305-312):
lower-case, drop characters outside `[\w\s-]`, replace whitespace
runs by `'-'`, collapse hyphen runs, then `.trim()`. -/
def generateSlug (t : String) : String :=
  String.mk (trimWs (collapseRuns (fun c => c == '-') false
    (collapseRuns isJsSpace false
      ((t.data.map Char.toLower).filter keepChar))))

/-- Characters kept by step 2 of the claimed derivation: letters,
digits, whitespace, hyphen — and, unlike the code, no underscore. -/
def specKeepChar (c : Char) : Bool :=
  c.isAlpha || c.isDigit || isJsSpace c || c == '-'

/-- Strip hyphens from both ends, step 5 of the claimed derivation. -/
def trimHyphens (l : List Char) : List Char :=
  ((l.dropWhile (fun c => c == '-')).reverse.dropWhile
    (fun c => c == '-')).reverse

/-- The slug derivation exactly as claim C1 words it: lower-case,
remove every character that is not a letter, digit, whitespace or
hyphen, collapse whitespace runs to single hyphens, collapse hyphen
runs, trim leading and trailing hyphens.  Written only to be compared
against `generateSlug`. -/
def specSlug (t : String) : String :=
  String.mk (trimHyphens (collapseRuns (fun c => c == '-') false
    (collapseRuns isJsSpace false
      ((t.data.map Char.toLower).filter specKeepChar))))

/-- Separator characters: whitespace or hyphen. -/
def isSepChar (c : Char) : Bool :=
  isJsSpace c || c == '-'

/-- The amended description of `generateSlug`: lower-case, keep only
`[\w\s-]` characters (underscores included), then replace each
maximal run of whitespace/hyphen characters by one hyphen; no
end-trimming of hyphens happens. -/
def amendedSlug (t : String) : String :=
  String.mk (collapseRuns isSepChar false
    ((t.data.map Char.toLower).filter keepChar))

/-- Decimal digits of `n`, most significant first, with explicit fuel
(the recursion divides by 10, so fuel `n + 1` is always enough).
Models JavaScript template-literal rendering of a number, as in
`` `${slug}-${counter}` `` (app.js line 566). -/
def natStrAux : Nat → Nat → List Char
  | 0, _ => []
  | fuel + 1, n =>
    if n < 10 then [Char.ofNat (48 + n)]
    else natStrAux fuel (n / 10) ++ [Char.ofNat (48 + n % 10)]

/-- Decimal string of a natural number (JS number-to-string). -/
def natStr (n : Nat) : String :=
  String.mk (natStrAux (n + 1) n)

/-- Decimal value of a digit string; left inverse of `natStrAux`,
used only to prove `natStr` injective. -/
def fromD (l : List Char) : Nat :=
  l.foldl (fun a c => 10 * a + (c.toNat - 48)) 0

/-- The `k`-th slug candidate tried by the creation probe loop
(app.js lines 552-569): the base slug itself, then `base-1`,
`base-2`, ... -/
def candidate (base : String) (k : Nat) : String :=
  if k = 0 then base else base ++ "-" ++ natStr k

/-- The `.single()` query of the probe loop (app.js lines 557-561):
the row is returned (data non-null) exactly when precisely one stored
row carries the probed slug. -/
def occupied (slugs : List String) (s : String) : Bool :=
  (slugs.filter (fun x => x == s)).length == 1

/-- The `while (slugExists)` probe loop of POST /admin/blog (app.js
lines 552-569), with explicit fuel standing for the number of probes
still allowed: if the current `finalSlug` is taken, retry with
`slug ++ "-" ++ counter` and increment the counter. -/
def probeLoop (slugs : List String) (slug : String) :
    Nat → Nat → String → Option String
  | 0, _, _ => none
  | fuel + 1, counter, finalSlug =>
    if occupied slugs finalSlug then
      probeLoop slugs slug fuel (counter + 1) (slug ++ "-" ++ natStr counter)
    else some finalSlug

/-- Slug assignment on creation: run the probe loop from
`generateSlug title` with counter 1 and fuel `slugs.length + 1`
(proved sufficient below). -/
def assignSlug (slugs : List String) (title : String) : Option String :=
  probeLoop slugs (generateSlug title) (slugs.length + 1) 1 (generateSlug title)

/-- A row of the `blogs` table. -/
structure Post where
  title : String
  description : String
  slug : String
  fileUrl : Option String
deriving DecidableEq

/-- The externally stored state: the `blogs` table and the
`blog-files` bucket (object names). -/
structure ServerState where
  store : List Post
  bucket : List String
deriving DecidableEq

/-- A multipart file upload; only the extension matters to the model
(the stored object is named `Date.now() + path.extname(originalname)`). -/
structure FileUpload where
  ext : String
deriving DecidableEq

/-- An object-storage call performed by a handler. -/
inductive StorageOp where
  | removeObj (name : String)
  | uploadObj (name : String)
deriving DecidableEq

/-- The observable HTTP outcome of a handler. -/
inductive Response where
  | redirect (target : String)
  | render (view : String)
  | serverError (code : Nat) (msg : String)
deriving DecidableEq

/-- The configured admin credentials (ADMIN_USERNAME / ADMIN_PASSWORD). -/
structure AdminCreds where
  username : String
  password : String

/-- `url.split('/').pop()`: the substring after the last `'/'`
(the whole string when there is no `'/'`). -/
def lastSegment (url : String) : String :=
  String.mk ((url.data.reverse.takeWhile (fun c => !(c == '/'))).reverse)

/-- A `.eq('slug', s).single()` read: some row exactly when precisely
one stored row has slug `s`. -/
def getSingle (store : List Post) (s : String) : Option Post :=
  match store.filter (fun p => p.slug == s) with
  | [p] => some p
  | _ => none

/-- The edit handler's conflict probe (app.js lines 436-441):
`.eq('slug', newSlug).neq('slug', oldSlug).single()`. -/
def conflictCheck (store : List Post) (newSlug oldSlug : String) : Option Post :=
  match store.filter (fun p => p.slug == newSlug && !(p.slug == oldSlug)) with
  | [p] => some p
  | _ => none

/-- `supabase.storage.remove([name])`: drop the object with that name. -/
def bucketRemove (bucket : List String) (name : String) : List String :=
  bucket.filter (fun o => !(o == name))

/-- The bucket's public URL base (getPublicUrl); the model fixes the
environment-dependent project URL to a representative constant. -/
def publicBase : String :=
  "https://example.supabase.co/storage/v1/object/public/blog-files/"

/-- `getPublicUrl(filename).publicUrl`. -/
def publicFileUrl (filename : String) : String :=
  publicBase ++ filename

/-- The `requireAuth` middleware (app.js lines 325-331): run the body
only when the session is authenticated, otherwise redirect to /login
touching nothing. -/
def withAuth (auth : Bool) (st : ServerState)
    (body : Response × ServerState × List StorageOp) :
    Response × ServerState × List StorageOp :=
  if auth then body else (Response.redirect "/login", st, [])

/-- Slug recomputation of POST /admin/edit/:slug (app.js lines
433-445): the base slug from the submitted title, suffixed with
`Date.now()` when another post already holds it. -/
def editSlug (store : List Post) (title oldSlug : String) (now : Nat) : String :=
  if (conflictCheck store (generateSlug title) oldSlug).isSome then
    generateSlug title ++ "-" ++ natStr now
  else generateSlug title

/-- The `.update({...}).eq('slug', oldSlug)` write (app.js lines
494-502) applied to one row. -/
def editUpdate (oldSlug title description newSlug : String)
    (fileUrl : Option String) (p : Post) : Post :=
  if p.slug == oldSlug then
    { p with title := title, description := description,
             fileUrl := fileUrl, slug := newSlug }
  else p

/-- File handling of POST /admin/edit/:slug (app.js lines 456-491):
optionally delete the old object when the remove-file box is ticked,
then, when a new file was uploaded, delete the old object (if still
referenced) and upload the new one under `Date.now() + ext`.
Returns the resulting `file_url`, bucket, and the storage calls made. -/
def editFileStep (bucket : List String) (fileUrl0 : Option String)
    (removeFile : Option String) (file : Option FileUpload) (now : Nat) :
    Option String × List String × List StorageOp :=
  let step1 : Option String × List String × List StorageOp :=
    match removeFile == some "on", fileUrl0 with
    | true, some url =>
      (none, bucketRemove bucket (lastSegment url),
       [StorageOp.removeObj (lastSegment url)])
    | _, _ => (fileUrl0, bucket, [])
  match file with
  | some f =>
    let pre : List String × List StorageOp :=
      match step1.1 with
      | some url =>
        (bucketRemove step1.2.1 (lastSegment url),
         step1.2.2 ++ [StorageOp.removeObj (lastSegment url)])
      | none => (step1.2.1, step1.2.2)
    (some (publicFileUrl (natStr now ++ f.ext)),
     pre.1 ++ [natStr now ++ f.ext],
     pre.2 ++ [StorageOp.uploadObj (natStr now ++ f.ext)])
  | none => step1

/-- Body of POST /admin/edit/:slug (app.js lines 429-510).  The
conflict probe and the current-row fetch are reads; when the slug
parameter matches no row, `currentBlog` is null and the JS dereference
`currentBlog.file_url` throws before any write, caught at the handler
boundary as the generic 500 response. -/
def editBody (st : ServerState) (oldSlug title description : String)
    (removeFile : Option String) (file : Option FileUpload) (now : Nat) :
    Response × ServerState × List StorageOp :=
  match getSingle st.store oldSlug with
  | none => (Response.serverError 500 "Error updating blog post", st, [])
  | some currentBlog =>
    (Response.redirect "/admin",
     ⟨st.store.map (editUpdate oldSlug title description
        (editSlug st.store title oldSlug now)
        (editFileStep st.bucket currentBlog.fileUrl removeFile file now).1),
      (editFileStep st.bucket currentBlog.fileUrl removeFile file now).2.1⟩,
     (editFileStep st.bucket currentBlog.fileUrl removeFile file now).2.2)

/-- Body of POST /admin/delete/:slug (app.js lines 513-544): fetch the
row, delete its attached object if any, then delete every row with
that slug. -/
def deleteBody (st : ServerState) (slug : String) :
    Response × ServerState × List StorageOp :=
  let step1 : List String × List StorageOp :=
    match getSingle st.store slug with
    | some b =>
      match b.fileUrl with
      | some url =>
        (bucketRemove st.bucket (lastSegment url),
         [StorageOp.removeObj (lastSegment url)])
      | none => (st.bucket, [])
    | none => (st.bucket, [])
  (Response.redirect "/admin",
   ⟨st.store.filter (fun p => !(p.slug == slug)), step1.1⟩,
   step1.2)

/-- Body of POST /admin/blog (app.js lines 546-609): resolve a unique
slug with the probe loop, optionally upload the attached file, insert
the row.  The `none` branch of the probe is unreachable (see
`createProbe_terminates`); it is mapped to the handler's generic
failure response. -/
def createBody (st : ServerState) (title description : String)
    (file : Option FileUpload) (now : Nat) :
    Response × ServerState × List StorageOp :=
  match assignSlug (st.store.map Post.slug) title with
  | none => (Response.serverError 500 "Error creating blog post", st, [])
  | some finalSlug =>
    let step1 : Option String × List String × List StorageOp :=
      match file with
      | some f =>
        (some (publicFileUrl (natStr now ++ f.ext)),
         st.bucket ++ [natStr now ++ f.ext],
         [StorageOp.uploadObj (natStr now ++ f.ext)])
      | none => (none, st.bucket, [])
    (Response.redirect "/",
     ⟨st.store ++ [⟨title, description, finalSlug, step1.1⟩], step1.2.1⟩,
     step1.2.2)

/-- GET /admin (app.js lines 388-405). -/
def handleAdminList (auth : Bool) (st : ServerState) :
    Response × ServerState × List StorageOp :=
  withAuth auth st (Response.render "admin", st, [])

/-- GET /admin/edit/:slug (app.js lines 408-426). -/
def handleEditForm (auth : Bool) (st : ServerState) (slug : String) :
    Response × ServerState × List StorageOp :=
  withAuth auth st
    ((match getSingle st.store slug with
      | some _ => Response.render "edit"
      | none => Response.redirect "/admin"), st, [])

/-- POST /admin/edit/:slug behind requireAuth. -/
def handleEditPost (auth : Bool) (st : ServerState)
    (oldSlug title description : String) (removeFile : Option String)
    (file : Option FileUpload) (now : Nat) :
    Response × ServerState × List StorageOp :=
  withAuth auth st (editBody st oldSlug title description removeFile file now)

/-- POST /admin/blog behind requireAuth. -/
def handleCreatePost (auth : Bool) (st : ServerState)
    (title description : String) (file : Option FileUpload) (now : Nat) :
    Response × ServerState × List StorageOp :=
  withAuth auth st (createBody st title description file now)

/-- POST /admin/delete/:slug behind requireAuth. -/
def handleDeletePost (auth : Bool) (st : ServerState) (slug : String) :
    Response × ServerState × List StorageOp :=
  withAuth auth st (deleteBody st slug)

/-- GET /blog/:slug (app.js lines 353-371): render the post, or
redirect to the listing when the slug matches no row. -/
def handleBlogShow (store : List Post) (slug : String) : Response :=
  match getSingle store slug with
  | some _ => Response.render "blog"
  | none => Response.redirect "/"

/-- POST /login (app.js lines 377-385): strict comparison against the
configured credentials; on failure redirect to /login leaving the
session flag as it was. -/
def handleLogin (creds : AdminCreds) (sess : Bool) (u p : String) :
    Response × Bool :=
  if u == creds.username && p == creds.password then
    (Response.redirect "/admin", true)
  else (Response.redirect "/login", sess)

theorem collapseRuns_compose (l : List Char) :
    ∀ a b : Bool, (a = true → b = true) →
    collapseRuns (fun c => c == '-') b (collapseRuns isJsSpace a l) =
      collapseRuns isSepChar b l := by
  induction l with
  | nil => intro a b _; rfl
  | cons c cs ih =>
    intro a b hab
    by_cases hs : isJsSpace c = true
    · have hsep : isSepChar c = true := by simp [isSepChar, hs]
      cases a with
      | true =>
        have hb : b = true := hab rfl
        subst hb
        simp only [collapseRuns, hs, hsep, if_true]
        exact ih true true (fun h => h)
      | false =>
        cases b with
        | true =>
          simp only [collapseRuns, hs, hsep, if_true, if_false]
          simp only [show (('-' : Char) == '-') = true from rfl, if_true]
          exact ih true true (fun h => h)
        | false =>
          simp only [collapseRuns, hs, hsep, if_true, if_false]
          simp only [show (('-' : Char) == '-') = true from rfl, if_true]
          exact congrArg (('-' : Char) :: ·) (ih true true (fun h => h))
    · have hs' : isJsSpace c = false := by simpa using hs
      by_cases hd : (c == '-') = true
      · have hsep : isSepChar c = true := by simp [isSepChar, hd]
        cases b with
        | true =>
          simp only [collapseRuns, hs', hsep, hd, if_true, if_false,
            Bool.false_eq_true]
          exact ih false true (fun h => by cases h)
        | false =>
          have hc : c = '-' := by simpa using hd
          subst hc
          simp only [collapseRuns, hs', hsep, hd, if_true, if_false,
            Bool.false_eq_true]
          exact congrArg (('-' : Char) :: ·) (ih false true (fun h => by cases h))
      · have hd' : (c == '-') = false := by simpa using hd
        have hsep : isSepChar c = false := by simp [isSepChar, hs', hd']
        simp only [collapseRuns, hs', hsep, hd', Bool.false_eq_true,
          if_false]
        exact congrArg (c :: ·) (ih false false (fun h => h))

theorem mem_collapseRuns_sep (l : List Char) :
    ∀ (b : Bool) (c : Char), c ∈ collapseRuns isSepChar b l →
      isJsSpace c = false := by
  induction l with
  | nil => intro b c h; cases h
  | cons d ds ih =>
    intro b c h
    by_cases hd : isSepChar d = true
    · cases b with
      | true =>
        simp only [collapseRuns, hd, if_true] at h
        exact ih true c h
      | false =>
        simp only [collapseRuns, hd, if_true, Bool.false_eq_true,
          if_false] at h
        rcases List.mem_cons.mp h with rfl | h'
        · rfl
        · exact ih true c h'
    · have hd' : isSepChar d = false := by simpa using hd
      simp only [collapseRuns, hd', Bool.false_eq_true, if_false] at h
      rcases List.mem_cons.mp h with rfl | h'
      · simp only [isSepChar, Bool.or_eq_false_iff] at hd'
        exact hd'.1
      · exact ih false c h'

theorem dropWhile_eq_self_of_all {p : Char → Bool} {l : List Char}
    (h : ∀ c ∈ l, p c = false) : l.dropWhile p = l := by
  cases l with
  | nil => rfl
  | cons a l => simp [List.dropWhile, h a (List.mem_cons_self a l)]

theorem trimWs_eq_self {l : List Char}
    (h : ∀ c ∈ l, isJsSpace c = false) : trimWs l = l := by
  unfold trimWs
  rw [dropWhile_eq_self_of_all h,
    dropWhile_eq_self_of_all (fun c hc => h c (List.mem_reverse.mp hc)),
    List.reverse_reverse]

/-- C1 fails as stated: on the title `"-a_b-"` the code keeps the
underscore (the JS class `\w` contains `'_'`) and does not trim the
leading and trailing hyphens (`.trim()` only strips whitespace), so
`generateSlug` differs from the claimed five-step derivation. -/
theorem generateSlug_ne_specSlug_cex :
    generateSlug "-a_b-" ≠ specSlug "-a_b-" := by decide

/-- C1 (amended): `generateSlug(t)` equals the result of lower-casing
`t`, removing every character that is not an ASCII letter, digit,
underscore, whitespace, or hyphen, and then replacing each maximal
run of whitespace and/or hyphen characters by a single hyphen
(equivalently: collapsing whitespace runs to hyphens and then hyphen
runs to one hyphen).  Leading and trailing hyphens are NOT trimmed —
the final trim strips only whitespace, and none remains. -/
theorem generateSlug_eq_amendedSlug (t : String) :
    generateSlug t = amendedSlug t := by
  unfold generateSlug amendedSlug
  rw [collapseRuns_compose _ false false (fun h => h),
    trimWs_eq_self (fun c hc => mem_collapseRuns_sep _ _ _ hc)]

theorem digitChar_toNat : ∀ d, d < 10 → (Char.ofNat (48 + d)).toNat = 48 + d := by
  decide

theorem fromD_append_digit (l : List Char) (c : Char) :
    fromD (l ++ [c]) = 10 * fromD l + (c.toNat - 48) := by
  unfold fromD
  rw [List.foldl_append]
  rfl

theorem fromD_natStrAux :
    ∀ fuel n, n < 10 ^ fuel → fromD (natStrAux fuel n) = n := by
  intro fuel
  induction fuel with
  | zero =>
    intro n h
    have hn : n = 0 := by simpa using Nat.lt_one_iff.mp (by simpa using h)
    subst hn
    rfl
  | succ f ih =>
    intro n h
    by_cases h10 : n < 10
    · simp only [natStrAux, h10, if_true]
      show 10 * 0 + ((Char.ofNat (48 + n)).toNat - 48) = n
      rw [digitChar_toNat n h10]
      omega
    · simp only [natStrAux, h10, if_false]
      have hdiv : n / 10 < 10 ^ f := by
        rw [Nat.div_lt_iff_lt_mul (by norm_num)]
        calc n < 10 ^ (f + 1) := h
          _ = 10 ^ f * 10 := pow_succ 10 f
      rw [fromD_append_digit, ih _ hdiv,
        digitChar_toNat (n % 10) (Nat.mod_lt _ (by norm_num))]
      omega

theorem natStr_injective : Function.Injective natStr := by
  intro m n h
  have hd : natStrAux (m + 1) m = natStrAux (n + 1) n := congrArg String.data h
  have hm : m < 10 ^ (m + 1) :=
    lt_of_lt_of_le (Nat.lt_pow_self (by norm_num) m)
      (Nat.pow_le_pow_right (by norm_num) (Nat.le_succ m))
  have hn : n < 10 ^ (n + 1) :=
    lt_of_lt_of_le (Nat.lt_pow_self (by norm_num) n)
      (Nat.pow_le_pow_right (by norm_num) (Nat.le_succ n))
  rw [← fromD_natStrAux (m + 1) m hm, ← fromD_natStrAux (n + 1) n hn, hd]

theorem candidate_injective (base : String) :
    Function.Injective (candidate base) := by
  intro i j h
  unfold candidate at h
  by_cases hi : i = 0 <;> by_cases hj : j = 0
  · exact hi.trans hj.symm
  · exfalso
    rw [if_pos hi, if_neg hj] at h
    have hlen := congrArg (fun s => s.data.length) h
    simp only [String.data_append, List.length_append,
      List.length_cons, List.length_nil] at hlen
    omega
  · exfalso
    rw [if_neg hi, if_pos hj] at h
    have hlen := congrArg (fun s => s.data.length) h
    simp only [String.data_append, List.length_append,
      List.length_cons, List.length_nil] at hlen
    omega
  · rw [if_neg hi, if_neg hj] at h
    have hd := congrArg String.data h
    simp only [String.data_append] at hd
    have hd' : (natStr i).data = (natStr j).data := by
      simpa [List.append_assoc] using hd
    have : natStr i = natStr j := by
      have := congrArg String.mk hd'
      simpa using this
    exact natStr_injective this

theorem filter_eq_singleton {α : Type} {p : α → Bool} {l : List α} {a : α}
    (hnd : l.Nodup) (ha : a ∈ l) (hpa : p a = true)
    (huniq : ∀ b ∈ l, p b = true → b = a) :
    l.filter p = [a] := by
  induction l with
  | nil => cases ha
  | cons x xs ih =>
    rw [List.nodup_cons] at hnd
    rcases List.mem_cons.mp ha with rfl | hax
    · rw [List.filter_cons_of_pos hpa]
      have hrest : xs.filter p = [] := by
        rw [List.filter_eq_nil_iff]
        intro b hb hpb
        exact hnd.1 ((huniq b (List.mem_cons_of_mem _ hb) hpb) ▸ hb)
      rw [hrest]
    · have hpx : p x = false := by
        cases hx : p x
        · rfl
        · exact absurd ((huniq x (List.mem_cons_self x xs) hx) ▸ hax) hnd.1
      rw [List.filter_cons_of_neg (by simp [hpx])]
      exact ih hnd.2 hax (fun b hb hpb =>
        huniq b (List.mem_cons_of_mem x hb) hpb)

theorem occupied_of_mem {slugs : List String} {s : String}
    (hnd : slugs.Nodup) (h : s ∈ slugs) : occupied slugs s = true := by
  unfold occupied
  rw [filter_eq_singleton hnd h (by simp)
    (fun b _ hb => by simpa using hb)]
  rfl

theorem not_occupied_of_not_mem {slugs : List String} {s : String}
    (h : s ∉ slugs) : occupied slugs s = false := by
  unfold occupied
  have hf : slugs.filter (fun x => x == s) = [] := by
    rw [List.filter_eq_nil_iff]
    intro b hb hbeq
    have : b = s := by simpa using hbeq
    exact h (this ▸ hb)
  rw [hf]
  rfl

theorem mem_of_occupied {slugs : List String} {s : String}
    (h : occupied slugs s = true) : s ∈ slugs := by
  unfold occupied at h
  cases hf : slugs.filter (fun x => x == s) with
  | nil => rw [hf] at h; simp at h
  | cons b bs =>
    have hb : b ∈ slugs.filter (fun x => x == s) := by
      rw [hf]; exact List.mem_cons_self b bs
    have hmem := List.mem_filter.mp hb
    have hbe : b = s := by simpa using hmem.2
    exact hbe ▸ hmem.1

theorem exists_free_candidate (slugs : List String) (base : String) :
    ∃ k, k ≤ slugs.length ∧ occupied slugs (candidate base k) = false := by
  by_contra hcon
  push_neg at hcon
  have hmem : ∀ k, k ≤ slugs.length → candidate base k ∈ slugs := by
    intro k hk
    have h1 := hcon k hk
    have h2 : occupied slugs (candidate base k) = true := by
      cases h : occupied slugs (candidate base k)
      · exact absurd h h1
      · rfl
    exact mem_of_occupied h2
  have hnd : ((List.range (slugs.length + 1)).map (candidate base)).Nodup :=
    (List.nodup_range _).map (candidate_injective base)
  have hsub : (List.range (slugs.length + 1)).map (candidate base) ⊆ slugs := by
    intro x hx
    rcases List.mem_map.mp hx with ⟨k, hk, rfl⟩
    exact hmem k (Nat.lt_succ_iff.mp (List.mem_range.mp hk))
  have hlen := (List.subperm_of_subset hnd hsub).length_le
  simp at hlen

theorem probeLoop_eq_of_free (slugs : List String) (base : String) (k : Nat)
    (hfree : occupied slugs (candidate base k) = false)
    (hocc : ∀ j, j < k → occupied slugs (candidate base j) = true) :
    ∀ fuel c, 1 ≤ c → c - 1 ≤ k → k - (c - 1) < fuel →
      probeLoop slugs base fuel c (candidate base (c - 1)) =
        some (candidate base k) := by
  intro fuel
  induction fuel with
  | zero => intro c _ _ hf; omega
  | succ f ih =>
    intro c hc hck hf
    by_cases hek : c - 1 = k
    · rw [hek]
      simp [probeLoop, hfree]
    · have hlt : c - 1 < k := by omega
      have hocc' := hocc _ hlt
      simp only [probeLoop, hocc', if_true]
      have hcand : base ++ "-" ++ natStr c = candidate base c := by
        unfold candidate
        rw [if_neg (by omega)]
      rw [hcand]
      have hgoal := ih (c + 1) (by omega) (by omega) (by omega)
      simpa using hgoal

/-- C5: for every finite store contents and every title, the
creation-time probe loop of POST /admin/blog (app.js lines 552-569)
terminates: `store.length + 1` probes already suffice to reach a free
slug, so the loop returns a result. -/
theorem createProbe_terminates (slugs : List String) (title : String) :
    ∃ s, assignSlug slugs title = some s := by
  obtain ⟨k, hk, hfree⟩ := exists_free_candidate slugs (generateSlug title)
  have hex : ∃ j, occupied slugs (candidate (generateSlug title) j) = false :=
    ⟨k, hfree⟩
  refine ⟨candidate (generateSlug title) (Nat.find hex), ?_⟩
  have hmin : ∀ j, j < Nat.find hex →
      occupied slugs (candidate (generateSlug title) j) = true := by
    intro j hj
    have hne := Nat.find_min hex hj
    cases h : occupied slugs (candidate (generateSlug title) j)
    · exact absurd h hne
    · rfl
  have hle : Nat.find hex ≤ slugs.length :=
    le_trans (Nat.find_min' hex hfree) hk
  have hrun := probeLoop_eq_of_free slugs (generateSlug title) (Nat.find hex)
    (Nat.find_spec hex) hmin (slugs.length + 1) 1 (le_refl 1)
    (by omega) (by omega)
  have h0 : candidate (generateSlug title) 0 = generateSlug title := by
    unfold candidate
    rw [if_pos rfl]
  rw [show (1 : Nat) - 1 = 0 from rfl, h0] at hrun
  unfold assignSlug
  exact hrun

/-- C2: on creation (POST /admin/blog, app.js lines 546-601) the
assigned slug is the first element of the candidate sequence
`generateSlug t`, `generateSlug t`-1, `generateSlug t`-2, ... that is
not already present in the store; in particular two successive
creations titled "Hello World" are assigned "hello-world" and then
"hello-world-1". -/
theorem create_assigns_first_free_slug :
    (∀ (slugs : List String) (title : String), slugs.Nodup →
      ∃ k, assignSlug slugs title =
          some (candidate (generateSlug title) k) ∧
        candidate (generateSlug title) k ∉ slugs ∧
        ∀ j, j < k → candidate (generateSlug title) j ∈ slugs) ∧
    (createBody ⟨[], []⟩ "Hello World" "first" none 0).2.1.store.map Post.slug
      = ["hello-world"] ∧
    ((createBody (createBody ⟨[], []⟩ "Hello World" "first" none 0).2.1
        "Hello World" "second" none 0).2.1.store.map Post.slug)
      = ["hello-world", "hello-world-1"] := by
  refine ⟨?_, by decide, by decide⟩
  intro slugs title hnd
  obtain ⟨k, hk, hfree⟩ := exists_free_candidate slugs (generateSlug title)
  have hnm : candidate (generateSlug title) k ∉ slugs := by
    intro hm
    rw [occupied_of_mem hnd hm] at hfree
    cases hfree
  have hex : ∃ j, candidate (generateSlug title) j ∉ slugs := ⟨k, hnm⟩
  refine ⟨Nat.find hex, ?_, Nat.find_spec hex, ?_⟩
  · have hfree' : occupied slugs
        (candidate (generateSlug title) (Nat.find hex)) = false :=
      not_occupied_of_not_mem (Nat.find_spec hex)
    have hmin : ∀ j, j < Nat.find hex →
        occupied slugs (candidate (generateSlug title) j) = true := by
      intro j hj
      exact occupied_of_mem hnd (not_not.mp (Nat.find_min hex hj))
    have hle : Nat.find hex ≤ slugs.length :=
      le_trans (Nat.find_min' hex hnm) hk
    have hrun := probeLoop_eq_of_free slugs (generateSlug title)
      (Nat.find hex) hfree' hmin (slugs.length + 1) 1 (le_refl 1)
      (by omega) (by omega)
    have h0 : candidate (generateSlug title) 0 = generateSlug title := by
      unfold candidate
      rw [if_pos rfl]
    rw [show (1 : Nat) - 1 = 0 from rfl, h0] at hrun
    unfold assignSlug
    exact hrun
  · intro j hj
    exact not_not.mp (Nat.find_min hex hj)

/-- Witness for C2 at a concrete store already holding "hello-world". -/
theorem create_assigns_first_free_slug_witness :
    ∃ k, assignSlug ["hello-world"] "Hello World" =
        some (candidate (generateSlug "Hello World") k) ∧
      candidate (generateSlug "Hello World") k ∉ ["hello-world"] ∧
      ∀ j, j < k → candidate (generateSlug "Hello World") j ∈ ["hello-world"] :=
  create_assigns_first_free_slug.1 ["hello-world"] "Hello World" (by decide)

theorem eq_of_slug_eq {store : List Post}
    (hnd : (store.map Post.slug).Nodup) :
    ∀ {p q : Post}, p ∈ store → q ∈ store → p.slug = q.slug → p = q := by
  induction store with
  | nil => intro p q hp _ _; cases hp
  | cons a rest ih =>
    intro p q hp hq h
    rw [List.map_cons, List.nodup_cons] at hnd
    rcases List.mem_cons.mp hp with rfl | hpr <;>
      rcases List.mem_cons.mp hq with rfl | hqr
    · rfl
    · exfalso
      have hqm := List.mem_map_of_mem Post.slug hqr
      rw [← h] at hqm
      exact hnd.1 hqm
    · exfalso
      have hpm := List.mem_map_of_mem Post.slug hpr
      rw [h] at hpm
      exact hnd.1 hpm
    · exact ih hnd.2 hpr hqr h

theorem getSingle_of_mem {store : List Post} {p : Post}
    (hm : p ∈ store) (hnd : (store.map Post.slug).Nodup) :
    getSingle store p.slug = some p := by
  unfold getSingle
  rw [filter_eq_singleton (List.Nodup.of_map _ hnd) hm (by simp)
    (fun b hb hbe => eq_of_slug_eq hnd hb hm (by simpa using hbe))]

theorem getSingle_eq_none {store : List Post} {s : String}
    (h : ∀ p ∈ store, p.slug ≠ s) : getSingle store s = none := by
  unfold getSingle
  have hf : store.filter (fun p => p.slug == s) = [] := by
    rw [List.filter_eq_nil_iff]
    intro p hp
    simpa using h p hp
  rw [hf]

theorem conflictCheck_self (store : List Post) (s : String) :
    conflictCheck store s s = none := by
  unfold conflictCheck
  have hf : store.filter (fun p => p.slug == s && !(p.slug == s)) = [] := by
    rw [List.filter_eq_nil_iff]
    intro p _
    cases h : (p.slug == s) <;> simp [h]
  rw [hf]

theorem conflictCheck_eq_some {store : List Post} {q : Post}
    {oldSlug : String} (hm : q ∈ store)
    (hnd : (store.map Post.slug).Nodup) (hne : q.slug ≠ oldSlug) :
    conflictCheck store q.slug oldSlug = some q := by
  unfold conflictCheck
  rw [filter_eq_singleton (List.Nodup.of_map _ hnd) hm
    (by simp [hne])
    (fun b hb hbe => by
      simp only [Bool.and_eq_true, beq_iff_eq] at hbe
      exact eq_of_slug_eq hnd hb hm hbe.1)]

theorem handleEditPost_true (st : ServerState)
    (oldSlug title description : String) (removeFile : Option String)
    (file : Option FileUpload) (now : Nat) :
    handleEditPost true st oldSlug title description removeFile file now
      = editBody st oldSlug title description removeFile file now := rfl

theorem editBody_some {st : ServerState} {oldSlug : String} {cur : Post}
    (hg : getSingle st.store oldSlug = some cur)
    (title description : String) (removeFile : Option String)
    (file : Option FileUpload) (now : Nat) :
    editBody st oldSlug title description removeFile file now =
      (Response.redirect "/admin",
       ⟨st.store.map (editUpdate oldSlug title description
          (editSlug st.store title oldSlug now)
          (editFileStep st.bucket cur.fileUrl removeFile file now).1),
        (editFileStep st.bucket cur.fileUrl removeFile file now).2.1⟩,
       (editFileStep st.bucket cur.fileUrl removeFile file now).2.2) := by
  unfold editBody
  rw [hg]

/-- C6: every admin-scoped route (admin list, edit form, submit edit,
submit create, delete) behind `requireAuth` (app.js lines 325-331),
when the session is not authenticated, responds with a redirect to
the login form, leaves the record store and the bucket exactly as
they were, and performs no storage call. -/
theorem unauthenticated_admin_redirects_no_mutation
    (st : ServerState) (slug title description : String)
    (removeFile : Option String) (file : Option FileUpload) (now : Nat) :
    handleAdminList false st = (Response.redirect "/login", st, []) ∧
    handleEditForm false st slug = (Response.redirect "/login", st, []) ∧
    handleEditPost false st slug title description removeFile file now
      = (Response.redirect "/login", st, []) ∧
    handleCreatePost false st title description file now
      = (Response.redirect "/login", st, []) ∧
    handleDeletePost false st slug = (Response.redirect "/login", st, []) :=
  ⟨rfl, rfl, rfl, rfl, rfl⟩

/-- C7: two login submissions that both fail the credential comparison
(app.js lines 377-385) are observationally identical: the same
redirect back to the login form with no detail about which field was
wrong, and an unauthenticated session stays unauthenticated. -/
theorem failed_logins_indistinguishable (creds : AdminCreds)
    (u₁ p₁ u₂ p₂ : String)
    (h₁ : ¬(u₁ = creds.username ∧ p₁ = creds.password))
    (h₂ : ¬(u₂ = creds.username ∧ p₂ = creds.password)) :
    handleLogin creds false u₁ p₁ = handleLogin creds false u₂ p₂ ∧
    handleLogin creds false u₁ p₁ = (Response.redirect "/login", false) := by
  have e₁ : (u₁ == creds.username && p₁ == creds.password) = false := by
    cases hu : u₁ == creds.username <;> cases hp : p₁ == creds.password <;>
      simp_all
  have e₂ : (u₂ == creds.username && p₂ == creds.password) = false := by
    cases hu : u₂ == creds.username <;> cases hp : p₂ == creds.password <;>
      simp_all
  constructor <;> simp [handleLogin, e₁, e₂]

/-- Witness for C7: one wrong-username and one wrong-password attempt
against the same credentials produce literally the same outcome. -/
theorem failed_logins_indistinguishable_witness :
    handleLogin ⟨"admin", "hunter2"⟩ false "root" "hunter2"
      = handleLogin ⟨"admin", "hunter2"⟩ false "admin" "wrong" ∧
    handleLogin ⟨"admin", "hunter2"⟩ false "root" "hunter2"
      = (Response.redirect "/login", false) :=
  failed_logins_indistinguishable ⟨"admin", "hunter2"⟩
    "root" "hunter2" "admin" "wrong" (by decide) (by decide)

/-- C10: a submit-edit whose slug parameter matches no stored post:
the current-row lookup is null, the JS dereference of its `file_url`
throws before any write, the exception is caught at the handler
boundary, and the response is the generic 500 "Error updating blog
post" (not a redirect) with the store and bucket untouched. -/
theorem edit_unknown_slug_errors_no_mutation (st : ServerState)
    (oldSlug title description : String) (removeFile : Option String)
    (file : Option FileUpload) (now : Nat)
    (h : ∀ p ∈ st.store, p.slug ≠ oldSlug) :
    handleEditPost true st oldSlug title description removeFile file now
      = (Response.serverError 500 "Error updating blog post", st, []) := by
  rw [handleEditPost_true]
  unfold editBody
  rw [getSingle_eq_none h]

/-- Witness for C10 on a one-post store and an unknown slug. -/
theorem edit_unknown_slug_errors_no_mutation_witness :
    handleEditPost true ⟨[⟨"A", "d", "a", none⟩], []⟩
        "missing" "T" "D" none none 0
      = (Response.serverError 500 "Error updating blog post",
         ⟨[⟨"A", "d", "a", none⟩], []⟩, []) :=
  edit_unknown_slug_errors_no_mutation _ _ _ _ _ _ _ (by decide)

/-- C3 fails as stated: starting from the store produced by creating
"Hello World" twice (slugs "hello-world" and "hello-world-1"),
resubmitting the unchanged title "Hello World" on the post with slug
"hello-world-1" recomputes the base slug, collides with the other
post, and rewrites the slug to `hello-world-<Date.now()>`; the slug
does not survive the edit. -/
theorem edit_same_title_changes_slug_cex :
    (handleEditPost true
        ⟨[⟨"Hello World", "first", "hello-world", none⟩,
          ⟨"Hello World", "second", "hello-world-1", none⟩], []⟩
        "hello-world-1" "Hello World" "second" none none
        1700000000000).2.1.store.map Post.slug
      = ["hello-world", "hello-world-1700000000000"] ∧
    ("hello-world-1700000000000" : String) ≠ "hello-world-1" := by
  constructor
  · decide
  · decide

/-- C3 (amended): an edit resubmitting a post's unchanged title keeps
its slug provided the post's current slug equals the base slug
derived from that title (as for any post created without a
disambiguating suffix), slugs in the store being unique.  Without
that proviso the handler recomputes the slug from the title and a
suffixed slug is rewritten, as the counterexample shows. -/
theorem edit_same_title_keeps_slug (st : ServerState) (p : Post)
    (description : String) (removeFile : Option String)
    (file : Option FileUpload) (now : Nat)
    (hm : p ∈ st.store) (hnd : (st.store.map Post.slug).Nodup)
    (hbase : p.slug = generateSlug p.title) :
    (handleEditPost true st p.slug p.title description removeFile file now).1
      = Response.redirect "/admin" ∧
    (handleEditPost true st p.slug p.title description removeFile file
        now).2.1.store.map Post.slug
      = st.store.map Post.slug := by
  have hg := getSingle_of_mem hm hnd
  have he := editBody_some hg p.title description removeFile file now
  have hslug : editSlug st.store p.title p.slug now = p.slug := by
    unfold editSlug
    rw [← hbase, conflictCheck_self]
    rfl
  constructor
  · rw [handleEditPost_true, he]
  · rw [handleEditPost_true, he]
    show (st.store.map (editUpdate p.slug p.title description
        (editSlug st.store p.title p.slug now)
        (editFileStep st.bucket p.fileUrl removeFile file now).1)).map
          Post.slug = st.store.map Post.slug
    rw [List.map_map]
    refine List.map_congr_left ?_
    intro q hq
    show (editUpdate p.slug p.title description
        (editSlug st.store p.title p.slug now)
        (editFileStep st.bucket p.fileUrl removeFile file now).1 q).slug
      = q.slug
    unfold editUpdate
    cases hqs : (q.slug == p.slug) with
    | true =>
      rw [if_pos rfl]
      show editSlug st.store p.title p.slug now = q.slug
      rw [hslug]
      exact (by simpa using hqs : q.slug = p.slug).symm
    | false => simp

/-- Witness for C3 (amended) on a one-post store. -/
theorem edit_same_title_keeps_slug_witness :
    (handleEditPost true ⟨[⟨"Hello World", "d", "hello-world", none⟩], []⟩
        "hello-world" "Hello World" "x" none none 5).1
      = Response.redirect "/admin" ∧
    (handleEditPost true ⟨[⟨"Hello World", "d", "hello-world", none⟩], []⟩
        "hello-world" "Hello World" "x" none none 5).2.1.store.map Post.slug
      = ["hello-world"] :=
  edit_same_title_keeps_slug
    ⟨[⟨"Hello World", "d", "hello-world", none⟩], []⟩
    ⟨"Hello World", "d", "hello-world", none⟩ "x" none none 5
    (by decide) (by decide) (by decide)

/-- C4: an edit request whose recomputed base slug is already held by
a different post (app.js lines 432-445) updates the edited post to
the slug `base ++ "-" ++ Date.now()`, which is distinct from the
colliding post's slug. -/
theorem edit_conflict_timestamp_slug (st : ServerState) (p q : Post)
    (title description : String) (removeFile : Option String)
    (file : Option FileUpload) (now : Nat)
    (hp : p ∈ st.store) (hq : q ∈ st.store)
    (hnd : (st.store.map Post.slug).Nodup)
    (hqs : q.slug = generateSlug title)
    (hne : q.slug ≠ p.slug) :
    (handleEditPost true st p.slug title description removeFile file now).1
      = Response.redirect "/admin" ∧
    (∃ r, r ∈ (handleEditPost true st p.slug title description removeFile
          file now).2.1.store ∧
      r.title = title ∧ r.slug = generateSlug title ++ "-" ++ natStr now) ∧
    generateSlug title ++ "-" ++ natStr now ≠ q.slug := by
  have hg := getSingle_of_mem hp hnd
  have hcc : conflictCheck st.store (generateSlug title) p.slug = some q := by
    rw [← hqs]
    exact conflictCheck_eq_some hq hnd hne
  have hslug : editSlug st.store title p.slug now
      = generateSlug title ++ "-" ++ natStr now := by
    unfold editSlug
    rw [hcc]
    rfl
  have he := editBody_some hg title description removeFile file now
  refine ⟨?_, ?_, ?_⟩
  · rw [handleEditPost_true, he]
  · rw [handleEditPost_true, he]
    refine ⟨editUpdate p.slug title description
        (editSlug st.store title p.slug now)
        (editFileStep st.bucket p.fileUrl removeFile file now).1 p,
      List.mem_map_of_mem _ hp, ?_, ?_⟩
    · unfold editUpdate
      rw [if_pos (by simp)]
    · unfold editUpdate
      rw [if_pos (by simp)]
      exact hslug
  · rw [hqs]
    intro habs
    have hlen := congrArg (fun s => s.data.length) habs
    simp only [String.data_append, List.length_append, List.length_cons,
      List.length_nil] at hlen
    omega

/-- Witness for C4: editing the "old-title" post to the title
"Hello World" while another post holds "hello-world". -/
theorem edit_conflict_timestamp_slug_witness :
    (handleEditPost true
        ⟨[⟨"Old Title", "d1", "old-title", none⟩,
          ⟨"Hello World", "d2", "hello-world", none⟩], []⟩
        "old-title" "Hello World" "d1" none none 1700000000000).1
      = Response.redirect "/admin" ∧
    (∃ r, r ∈ (handleEditPost true
        ⟨[⟨"Old Title", "d1", "old-title", none⟩,
          ⟨"Hello World", "d2", "hello-world", none⟩], []⟩
        "old-title" "Hello World" "d1" none none
          1700000000000).2.1.store ∧
      r.title = "Hello World" ∧
      r.slug = generateSlug "Hello World" ++ "-" ++ natStr 1700000000000) ∧
    generateSlug "Hello World" ++ "-" ++ natStr 1700000000000
      ≠ ("hello-world" : String) :=
  edit_conflict_timestamp_slug
    ⟨[⟨"Old Title", "d1", "old-title", none⟩,
      ⟨"Hello World", "d2", "hello-world", none⟩], []⟩
    ⟨"Old Title", "d1", "old-title", none⟩
    ⟨"Hello World", "d2", "hello-world", none⟩
    "Hello World" "d1" none none 1700000000000
    (by decide) (by decide) (by decide) (by decide) (by decide)

/-- C8: deleting a post that has an attached file (app.js lines
513-544) removes the referenced object from the bucket and deletes
the record; provided no other stored post references that object (in
reachable states object references are unique), afterwards no stored
post references it and fetching the old slug is a not-found redirect
to the listing. -/
theorem delete_removes_object_and_record (st : ServerState) (p : Post)
    (url : String) (hm : p ∈ st.store) (hfile : p.fileUrl = some url)
    (hnd : (st.store.map Post.slug).Nodup)
    (huniq : ∀ q ∈ st.store, q.fileUrl = some url → q = p) :
    (handleDeletePost true st p.slug).1 = Response.redirect "/admin" ∧
    lastSegment url ∉ (handleDeletePost true st p.slug).2.1.bucket ∧
    (∀ q ∈ (handleDeletePost true st p.slug).2.1.store,
      q.fileUrl ≠ some url) ∧
    handleBlogShow (handleDeletePost true st p.slug).2.1.store p.slug
      = Response.redirect "/" := by
  have hg := getSingle_of_mem hm hnd
  have hd : handleDeletePost true st p.slug =
      (Response.redirect "/admin",
       ⟨st.store.filter (fun r => !(r.slug == p.slug)),
        bucketRemove st.bucket (lastSegment url)⟩,
       [StorageOp.removeObj (lastSegment url)]) := by
    show deleteBody st p.slug = _
    simp only [deleteBody, hg, hfile]
  rw [hd]
  refine ⟨rfl, ?_, ?_, ?_⟩
  · intro habs
    have hworld := (List.mem_filter.mp habs).2
    simp at hworld
  · intro q hq hqf
    have hmem := List.mem_filter.mp hq
    have hqp : q = p := huniq q hmem.1 hqf
    have hbad := hmem.2
    rw [hqp] at hbad
    simp at hbad
  · unfold handleBlogShow
    rw [getSingle_eq_none (fun r hr => by
      simpa using (List.mem_filter.mp hr).2)]

/-- Witness for C8 on a one-post store with one stored object. -/
theorem delete_removes_object_and_record_witness :
    (handleDeletePost true
        ⟨[⟨"T", "d", "t-slug", some "https://x/f/obj1.png"⟩],
         ["obj1.png"]⟩ "t-slug").1 = Response.redirect "/admin" ∧
    lastSegment "https://x/f/obj1.png" ∉ (handleDeletePost true
        ⟨[⟨"T", "d", "t-slug", some "https://x/f/obj1.png"⟩],
         ["obj1.png"]⟩ "t-slug").2.1.bucket ∧
    (∀ q ∈ (handleDeletePost true
        ⟨[⟨"T", "d", "t-slug", some "https://x/f/obj1.png"⟩],
         ["obj1.png"]⟩ "t-slug").2.1.store,
      q.fileUrl ≠ some "https://x/f/obj1.png") ∧
    handleBlogShow (handleDeletePost true
        ⟨[⟨"T", "d", "t-slug", some "https://x/f/obj1.png"⟩],
         ["obj1.png"]⟩ "t-slug").2.1.store "t-slug"
      = Response.redirect "/" :=
  delete_removes_object_and_record
    ⟨[⟨"T", "d", "t-slug", some "https://x/f/obj1.png"⟩], ["obj1.png"]⟩
    ⟨"T", "d", "t-slug", some "https://x/f/obj1.png"⟩
    "https://x/f/obj1.png"
    (by decide) (by decide) (by decide) (by decide)

/-- C9: submit-edit with the remove-file flag set and no new file, on
a post whose `file_url` is set (app.js lines 456-463, 494-504): the
handler's storage-call log is exactly one removal of the previously
referenced object (so it is deleted exactly once), and the persisted
row has `file_url` null. -/
theorem edit_remove_file_once (st : ServerState) (p : Post)
    (url : String) (title description : String) (now : Nat)
    (hm : p ∈ st.store) (hnd : (st.store.map Post.slug).Nodup)
    (hfile : p.fileUrl = some url) :
    (handleEditPost true st p.slug title description (some "on") none
        now).1 = Response.redirect "/admin" ∧
    (handleEditPost true st p.slug title description (some "on") none
        now).2.2 = [StorageOp.removeObj (lastSegment url)] ∧
    ∃ s, Post.mk title description s none
        ∈ (handleEditPost true st p.slug title description (some "on")
            none now).2.1.store := by
  have hg := getSingle_of_mem hm hnd
  have hfs : editFileStep st.bucket p.fileUrl (some "on") none now
      = (none, bucketRemove st.bucket (lastSegment url),
         [StorageOp.removeObj (lastSegment url)]) := by
    rw [hfile]
    rfl
  have he := editBody_some hg title description (some "on") none now
  rw [handleEditPost_true, he, hfs]
  refine ⟨rfl, rfl, ?_⟩
  refine ⟨editSlug st.store title p.slug now, ?_⟩
  have hup : editUpdate p.slug title description
      (editSlug st.store title p.slug now) none p
      = Post.mk title description (editSlug st.store title p.slug now)
          none := by
    unfold editUpdate
    rw [if_pos (by simp)]
  rw [← hup]
  exact List.mem_map_of_mem _ hm

/-- Witness for C9 on a one-post store with one stored object. -/
theorem edit_remove_file_once_witness :
    (handleEditPost true
        ⟨[⟨"T", "d", "t-slug", some "https://x/f/obj1.png"⟩],
         ["obj1.png"]⟩ "t-slug" "T" "d2" (some "on") none 7).1
      = Response.redirect "/admin" ∧
    (handleEditPost true
        ⟨[⟨"T", "d", "t-slug", some "https://x/f/obj1.png"⟩],
         ["obj1.png"]⟩ "t-slug" "T" "d2" (some "on") none 7).2.2
      = [StorageOp.removeObj (lastSegment "https://x/f/obj1.png")] ∧
    ∃ s, Post.mk "T" "d2" s none ∈ (handleEditPost true
        ⟨[⟨"T", "d", "t-slug", some "https://x/f/obj1.png"⟩],
         ["obj1.png"]⟩ "t-slug" "T" "d2" (some "on") none 7).2.1.store :=
  edit_remove_file_once
    ⟨[⟨"T", "d", "t-slug", some "https://x/f/obj1.png"⟩], ["obj1.png"]⟩
    ⟨"T", "d", "t-slug", some "https://x/f/obj1.png"⟩
    "https://x/f/obj1.png" "T" "d2" 7
    (by decide) (by decide) (by decide)

end Blog
